import Mathlib

/-!
Verification of libvecpf (the Vector Printf Library) against its design
specification.  The definitions below are a shallow embedding of the C
sources `src/vecpf.c` and `src/vecpf.h`: the static modifier and conversion
tables, the per-element format-string synthesis (`gen_fmt_str`), and the two
dispatch callbacks (`vec_printf_d`, `vec_printf_f`).  The host scalar
formatter (glibc `fprintf` on a single element) is an external collaborator;
it is modelled as an explicit function parameter, with one concrete
instance (`host_sprintf`) implementing the standard C integer-conversion
semantics the spec assumes.
-/

namespace Vecpf

/-- vecpf.h: `LIBVECTOR_VECTOR_WIDTH_BYTES` - a vector is 16 bytes. -/
def LIBVECTOR_VECTOR_WIDTH_BYTES : Nat := 16

/-- vecpf.h: data type code `VDT_unsigned_int`. -/
def VDT_unsigned_int : Nat := 0

/-- vecpf.h: data type code `VDT_signed_int`. -/
def VDT_signed_int : Nat := 1

/-- vecpf.h: data type code `VDT_unsigned_short`. -/
def VDT_unsigned_short : Nat := 2

/-- vecpf.h: data type code `VDT_signed_short`. -/
def VDT_signed_short : Nat := 3

/-- vecpf.h: data type code `VDT_unsigned_char`. -/
def VDT_unsigned_char : Nat := 4

/-- vecpf.h: data type code `VDT_signed_char`. -/
def VDT_signed_char : Nat := 5

/-- vecpf.h: data type code `VDT_float`. -/
def VDT_float : Nat := 6

/-- vecpf.h: data type code `VDT_double`. -/
def VDT_double : Nat := 7

/-- vecpf.c: `FMT_STR_MAXLEN`, the size of the static per-element format
string buffer in the dispatch callbacks. -/
def FMT_STR_MAXLEN : Nat := 64

/-- vecpf.c: the modifier strings of the `vector_mods` table, in table
order: index 0 is "vl", 1 is "lv", 2 is "vh", 3 is "hv", 4 is "v",
5 is "vv". -/
def vector_mods : List String := ["vl", "lv", "vh", "hv", "v", "vv"]

/-- Model of the `bits` field filled in by `register_printf_modifier` for
modifier index `i`: the host assigns each registered modifier its own
distinct bit of the `user` bitmask. -/
def mod_bits (i : Nat) : Nat := 2 ^ i

/-- vecpf.c: `vector_types_rec_t` - one row of a conversion table. -/
structure vector_types_rec where
  spec : Char
  bits_index : Nat
  mod_and_spec : String
  element_size : Nat
  data_type : Nat
deriving DecidableEq

/-- vecpf.c: `int_types_table`, all 31 rows in source order. -/
def int_types_table : List vector_types_rec :=
  [⟨'d', 0, "d",   4, VDT_signed_int⟩,
   ⟨'d', 1, "d",   4, VDT_signed_int⟩,
   ⟨'d', 2, "hd",  2, VDT_signed_short⟩,
   ⟨'d', 3, "hd",  2, VDT_signed_short⟩,
   ⟨'d', 4, "hhd", 1, VDT_signed_char⟩,
   ⟨'i', 0, "i",   4, VDT_signed_int⟩,
   ⟨'i', 1, "i",   4, VDT_signed_int⟩,
   ⟨'i', 2, "hi",  2, VDT_signed_short⟩,
   ⟨'i', 3, "hi",  2, VDT_signed_short⟩,
   ⟨'i', 4, "hhi", 1, VDT_signed_char⟩,
   ⟨'o', 0, "o",   4, VDT_unsigned_int⟩,
   ⟨'o', 1, "o",   4, VDT_unsigned_int⟩,
   ⟨'o', 2, "ho",  2, VDT_unsigned_short⟩,
   ⟨'o', 3, "ho",  2, VDT_unsigned_short⟩,
   ⟨'o', 4, "hho", 1, VDT_unsigned_char⟩,
   ⟨'u', 0, "u",   4, VDT_unsigned_int⟩,
   ⟨'u', 1, "u",   4, VDT_unsigned_int⟩,
   ⟨'u', 2, "hu",  2, VDT_unsigned_short⟩,
   ⟨'u', 3, "hu",  2, VDT_unsigned_short⟩,
   ⟨'u', 4, "hhu", 1, VDT_unsigned_char⟩,
   ⟨'x', 0, "x",   4, VDT_unsigned_int⟩,
   ⟨'x', 1, "x",   4, VDT_unsigned_int⟩,
   ⟨'x', 2, "hx",  2, VDT_unsigned_short⟩,
   ⟨'x', 3, "hx",  2, VDT_unsigned_short⟩,
   ⟨'x', 4, "hhx", 1, VDT_unsigned_char⟩,
   ⟨'X', 0, "X",   4, VDT_unsigned_int⟩,
   ⟨'X', 1, "X",   4, VDT_unsigned_int⟩,
   ⟨'X', 2, "hX",  2, VDT_unsigned_short⟩,
   ⟨'X', 3, "hX",  2, VDT_unsigned_short⟩,
   ⟨'X', 4, "hhX", 1, VDT_unsigned_char⟩,
   ⟨'c', 4, "c",   1, VDT_unsigned_char⟩]

/-- vecpf.c: `fp_types_table`, all 14 rows in source order. -/
def fp_types_table : List vector_types_rec :=
  [⟨'f', 4, "f", 4, VDT_float⟩,
   ⟨'e', 4, "e", 4, VDT_float⟩,
   ⟨'E', 4, "E", 4, VDT_float⟩,
   ⟨'g', 4, "g", 4, VDT_float⟩,
   ⟨'G', 4, "G", 4, VDT_float⟩,
   ⟨'a', 4, "a", 4, VDT_float⟩,
   ⟨'A', 4, "A", 4, VDT_float⟩,
   ⟨'f', 5, "f", 8, VDT_double⟩,
   ⟨'e', 5, "e", 8, VDT_double⟩,
   ⟨'E', 5, "E", 8, VDT_double⟩,
   ⟨'g', 5, "g", 8, VDT_double⟩,
   ⟨'G', 5, "G", 8, VDT_double⟩,
   ⟨'a', 5, "a", 8, VDT_double⟩,
   ⟨'A', 5, "A", 8, VDT_double⟩]

/-- The fields of glibc's `struct printf_info` that vecpf.c reads:
conversion char `spec`, modifier bitmask `user`, the five flag booleans,
the padding character `pad`, and the (runtime-passed) width and
precision. -/
structure printf_info where
  spec : Char
  user : Nat
  alt : Bool
  space : Bool
  left : Bool
  showsign : Bool
  group : Bool
  pad : Char
  width : Int
  prec : Int

/-- The row-match test of the lookup loops in `vec_printf_d` /
`vec_printf_f`: `info->spec == table[j].spec
&& (info->user & vector_mods[table[j].bits_index].bits)`. -/
def match_row (c : Char) (user : Nat) (r : vector_types_rec) : Bool :=
  c == r.spec && (user &&& mod_bits r.bits_index) != 0

/-- The linear scan of the lookup loops: first matching index from
position `j`, or none (`table_idx == -1` in the source). -/
def find_idx_from (c : Char) (user : Nat) :
    List vector_types_rec → Nat → Option Nat
  | [], _ => none
  | r :: rest, j =>
      if match_row c user r then some j else find_idx_from c user rest (j + 1)

/-- vecpf.c: the `table_idx` computation - index of the first table row
matching the incoming specifier and modifier bits. -/
def find_table_idx (table : List vector_types_rec) (c : Char) (user : Nat) :
    Option Nat :=
  find_idx_from c user table 0

/-- vecpf.c: `gen_fmt_str` - the synthesized per-element format string
(as a character list; the trailing NUL is implicit). -/
def gen_fmt_str (info : printf_info) (sz_flags_and_conv : List Char) :
    List Char :=
  ['%']
  ++ (if info.alt then ['#'] else [])
  ++ (if info.space then [' '] else [])
  ++ (if info.left then ['-'] else [])
  ++ (if info.showsign then ['+'] else [])
  ++ (if info.group then [Char.ofNat 39] else [])
  ++ (if !info.left && info.pad == '0' then ['0'] else [])
  ++ ['*', '.', '*']
  ++ sz_flags_and_conv

/-- vecpf.h: union member access `vp_u.ui[i]` / `si` / `uh` / `sh` /
`uc` / `sc` / `f` / `d` - element `i` of size `size` covers the raw bytes
at offsets `i*size .. i*size + size - 1` of the 16-byte vector, in memory
order. -/
def elem_bytes (v : List Nat) (size i : Nat) : List Nat :=
  (v.drop (i * size)).take size

/-- vecpf.h: how many elements the `vp_u_t` union member selected by data
type code `dt` has (`ui`/`si`/`f`: 4, `uh`/`sh`: 8, `uc`/`sc`: 16,
`d`: 2). -/
def vp_u_member_len (dt : Nat) : Nat :=
  if dt = VDT_unsigned_int then 4
  else if dt = VDT_signed_int then 4
  else if dt = VDT_unsigned_short then 8
  else if dt = VDT_signed_short then 8
  else if dt = VDT_unsigned_char then 16
  else if dt = VDT_signed_char then 16
  else if dt = VDT_float then 4
  else 2

/-- Sequential concatenation of the strings a loop writes, in order. -/
def str_concat : List String → String
  | [] => ""
  | s :: rest => s ++ str_concat rest

/-- Out-of-range placeholder for `List.getD` on the tables (never reached:
every produced index is in range). -/
def default_rec : vector_types_rec := ⟨'?', 0, "", 4, 0⟩

/-- The external scalar formatter (glibc `fprintf` on one element):
format-string characters, width, precision, data type code, and the
element's raw bytes, to the text written. -/
def ScalarFormatter : Type :=
  List Char → Int → Int → Nat → List Nat → String

/-- The `c`-conversion test of the separator branch in `vec_printf_d`:
`data_type == VDT_unsigned_char && !strcmp (mod_and_spec, "c")`. -/
def is_char_conv (r : vector_types_rec) : Bool :=
  r.data_type == VDT_unsigned_char && r.mod_and_spec == "c"

/-- The formatted pieces a rule produces: for each `i < limit`, what
`fprintf (fp, fmt_str, info->width, info->prec, vp_u.xx[i])` writes. -/
def pieces_of (sf : ScalarFormatter) (info : printf_info) (v : List Nat)
    (r : vector_types_rec) : List String :=
  (List.range (LIBVECTOR_VECTOR_WIDTH_BYTES / r.element_size)).map
    (fun i => sf (gen_fmt_str info r.mod_and_spec.data) info.width info.prec
                 r.data_type (elem_bytes v r.element_size i))

/-- The formatted pieces of the integer path's resolved row `j`. -/
def d_pieces (sf : ScalarFormatter) (info : printf_info) (v : List Nat)
    (j : Nat) : List String :=
  pieces_of sf info v (int_types_table.getD j default_rec)

/-- The formatted pieces of the floating-point path's resolved row `j`. -/
def f_pieces (sf : ScalarFormatter) (info : printf_info) (v : List Nat)
    (j : Nat) : List String :=
  pieces_of sf info v (fp_types_table.getD j default_rec)

/-- vecpf.c: `vec_printf_d` - the integer-family dispatch callback.  The
result is the C return value (0 handled, -2 declined) paired with the
stream contents, `out` being what the stream held on entry.  The loop
writes each element and then, when `limit > 1 && i < limit - 1` and the
rule is not the `c` conversion, a single space. -/
def vec_printf_d (sf : ScalarFormatter) (info : printf_info) (v : List Nat)
    (out : String) : Int × String :=
  match find_table_idx int_types_table info.spec info.user with
  | none => (-2, out)
  | some j =>
      let r := int_types_table.getD j default_rec
      let limit := LIBVECTOR_VECTOR_WIDTH_BYTES / r.element_size
      (0, out ++ str_concat ((List.range limit).map (fun i =>
        sf (gen_fmt_str info r.mod_and_spec.data) info.width info.prec
           r.data_type (elem_bytes v r.element_size i)
        ++ (if decide (limit > 1) && decide (i < limit - 1)
               && !(is_char_conv r) then " " else ""))))

/-- vecpf.c: `vec_printf_f` - the floating-point-family dispatch callback.
Note the separator branch of the source tests
`int_types_table[table_idx]` (not `fp_types_table`) for the `c`
conversion; the embedding reproduces that. -/
def vec_printf_f (sf : ScalarFormatter) (info : printf_info) (v : List Nat)
    (out : String) : Int × String :=
  match find_table_idx fp_types_table info.spec info.user with
  | none => (-2, out)
  | some j =>
      let r := fp_types_table.getD j default_rec
      let ri := int_types_table.getD j default_rec
      let limit := LIBVECTOR_VECTOR_WIDTH_BYTES / r.element_size
      (0, out ++ str_concat ((List.range limit).map (fun i =>
        sf (gen_fmt_str info r.mod_and_spec.data) info.width info.prec
           r.data_type (elem_bytes v r.element_size i)
        ++ (if decide (limit > 1) && decide (i < limit - 1)
               && !(is_char_conv ri) then " " else ""))))

/-- Little-endian value of a byte list: byte 0 is least significant.  On a
little-endian host this is the numeric value the `vp_u_t` union members
denote for the bytes they cover. -/
def le_val : List Nat → Nat
  | [] => 0
  | b :: rest => b + 256 * le_val rest

/-- Big-endian value of a byte list: byte 0 is most significant. -/
def be_val (bs : List Nat) : Nat := le_val bs.reverse

/-- Modelled from the spec: the external scalar formatter (the host's
"digit-generation algorithm for a single scalar", out of this repository:
"standard C-style format syntax", spec sections 1 and Glossary).  It
receives the synthesized format characters `% flags *.* suffix`, the
runtime width and precision, the rule's data type code and the element's
raw bytes (little-endian host), and renders the C-standard text for the
integer-family conversions; float conversions are left abstract (empty). -/
def host_sprintf : ScalarFormatter := fun fmt width prec dt bs =>
  let flag_set : List Char := (fmt.drop 1).takeWhile
    (fun c => c ∈ ['#', ' ', '-', '+', Char.ofNat 39, '0'])
  let suffix : List Char := ((fmt.drop 1).dropWhile
    (fun c => c ∈ ['#', ' ', '-', '+', Char.ofNat 39, '0'])).drop 3
  let conv : Char := suffix.getLastD '?'
  let raw : Nat := le_val bs
  let signed : Bool := dt == VDT_signed_int || dt == VDT_signed_short
                       || dt == VDT_signed_char
  let size : Nat := bs.length
  let ival : Int := if signed && raw ≥ 2 ^ (8 * size - 1)
                    then (raw : Int) - 2 ^ (8 * size) else (raw : Int)
  let mag : Nat := ival.natAbs
  let base : Nat := if conv == 'o' then 8
                    else if conv == 'x' || conv == 'X' then 16 else 10
  let digits : List Char :=
    if prec == 0 && mag == 0 then [] else Nat.toDigits base mag
  let digits : List Char :=
    if conv == 'X' then digits.map Char.toUpper else digits
  let digits : List Char :=
    if prec > 0 && digits.length < prec.toNat
    then List.replicate (prec.toNat - digits.length) '0' ++ digits
    else digits
  let sign : List Char :=
    if signed && ival < 0 then ['-']
    else if signed && '+' ∈ flag_set then ['+']
    else if signed && ' ' ∈ flag_set then [' ']
    else []
  let altpfx : List Char :=
    if '#' ∈ flag_set && conv == 'o' && digits.headD '0' ≠ '0' then ['0']
    else if '#' ∈ flag_set && (conv == 'x' || conv == 'X') && mag ≠ 0
    then ['0', conv] else []
  let body : List Char :=
    if conv == 'c' then [Char.ofNat (raw % 256)] else sign ++ altpfx ++ digits
  let w : Nat := width.natAbs
  let leftjust : Bool := '-' ∈ flag_set || width < 0
  let padded : List Char :=
    if body.length ≥ w then body
    else if leftjust then body ++ List.replicate (w - body.length) ' '
    else if '0' ∈ flag_set && conv != 'c' && prec < 0 then
      sign ++ altpfx ++ List.replicate (w - body.length) '0' ++ digits
    else List.replicate (w - body.length) ' ' ++ body
  List.asString padded

/-- Joining a string list with a separator between consecutive entries and
no trailing separator (the separator policy of spec section 4.5). -/
def join_with (sep : String) : List String → String
  | [] => ""
  | [s] => s
  | s :: y :: u => s ++ sep ++ join_with sep (y :: u)

theorem join_with_append_singleton (sep x : String) :
    ∀ xs : List String,
      join_with sep (xs ++ [x]) =
        str_concat (xs.map (fun s => s ++ sep)) ++ x := by
  intro xs
  induction xs with
  | nil => simp [join_with, str_concat]
  | cons s t ih =>
      cases t with
      | nil => simp [join_with, str_concat, String.append_assoc]
      | cons y u =>
          simp only [List.cons_append, List.map_cons, str_concat] at *
          rw [join_with, ih]
          simp [String.append_assoc]

theorem loop_join (f : Nat → String) (sep : String) (n : Nat) :
    str_concat ((List.range n).map (fun i =>
        f i ++ (if decide (n > 1) && decide (i < n - 1) then sep else ""))) =
      join_with sep ((List.range n).map f) := by
  match n with
  | 0 => simp [str_concat, join_with]
  | 1 => simp [str_concat, join_with, List.range_succ]
  | m + 2 =>
      rw [List.range_succ]
      simp only [List.map_append, List.map_cons, List.map_nil]
      rw [join_with_append_singleton]
      have hmap : (List.range (m + 1)).map (fun i =>
          f i ++ (if decide (m + 2 > 1) && decide (i < m + 2 - 1)
                  then sep else "")) =
          (List.range (m + 1)).map (fun i => f i ++ sep) := by
        apply List.map_congr_left
        intro a ha
        have : a < m + 1 := List.mem_range.mp ha
        simp [this]
      have hlast : f (m + 1) ++ (if decide (m + 2 > 1)
          && decide (m + 1 < m + 2 - 1) then sep else "") = f (m + 1) := by
        simp
      have hconcat : ∀ (l1 l2 : List String),
          str_concat (l1 ++ l2) = str_concat l1 ++ str_concat l2 := by
        intro l1 l2
        induction l1 with
        | nil => simp [str_concat]
        | cons a t ih => simp [str_concat, ih, String.append_assoc]
      rw [hconcat, hmap, hlast]
      simp only [str_concat, List.map_map]
      have : ((List.range (m + 1)).map (fun i => f i ++ sep)) =
          ((List.range (m + 1)).map f).map (fun s => s ++ sep) := by
        simp [List.map_map]
      rw [this]
      simp [String.append_assoc]

theorem find_idx_from_none (c : Char) (user : Nat) :
    ∀ (t : List vector_types_rec) (a : Nat),
      (∀ r ∈ t, match_row c user r = false) →
      find_idx_from c user t a = none := by
  intro t
  induction t with
  | nil => intro a _; rfl
  | cons r rest ih =>
      intro a h
      rw [find_idx_from]
      rw [h r (List.mem_cons_self r rest)]
      simp only [Bool.false_eq_true, if_false]
      exact ih (a + 1) (fun x hx => h x (List.mem_cons_of_mem r hx))

theorem find_idx_from_some (c : Char) (user : Nat) :
    ∀ (t : List vector_types_rec) (a j : Nat),
      find_idx_from c user t a = some j →
      a ≤ j ∧ j - a < t.length ∧
        match_row c user (t.getD (j - a) default_rec) = true := by
  intro t
  induction t with
  | nil => intro a j h; exact absurd h (by simp [find_idx_from])
  | cons r rest ih =>
      intro a j h
      rw [find_idx_from] at h
      by_cases hm : match_row c user r
      · rw [if_pos hm] at h
        have : a = j := Option.some.inj h
        subst this
        simp [hm]
      · rw [if_neg hm] at h
        obtain ⟨h1, h2, h3⟩ := ih (a + 1) j h
        refine ⟨by omega, by simp only [List.length_cons]; omega, ?_⟩
        have : j - a = (j - (a + 1)) + 1 := by omega
        rw [this]
        simpa using h3

theorem find_table_idx_some (table : List vector_types_rec) (c : Char)
    (user : Nat) (j : Nat) (h : find_table_idx table c user = some j) :
    j < table.length ∧
      match_row c user (table.getD j default_rec) = true := by
  obtain ⟨_, h2, h3⟩ := find_idx_from_some c user table 0 j h
  rw [Nat.sub_zero] at h2 h3
  exact ⟨h2, h3⟩

theorem sep_push (A B c : Bool) :
    (if (A && B && !c) = true then (" " : String) else "") =
      (if (A && B) = true then (if c = true then "" else " ") else "") := by
  cases A <;> cases B <;> cases c <;> rfl

theorem int_table_char_conv :
    ∀ r ∈ int_types_table, is_char_conv r = (r.spec == 'c') := by decide

theorem fp_quirk_no_char_conv :
    ∀ j, j < 14 →
      is_char_conv (int_types_table.getD j default_rec) = false := by decide

theorem getD_map_range (f : Nat → String) (n i : Nat) (h : i < n) :
    ((List.range n).map f).getD i "" = f i := by
  have hl : i < ((List.range n).map f).length := by simpa using h
  rw [List.getD_eq_getElem _ _ hl]
  simp

/-- Reformulation of `vec_printf_d` when the table lookup succeeds: the
stream receives the formatted pieces joined by the separator the `c` test
selects. -/
theorem vec_printf_d_some (sf : ScalarFormatter) (info : printf_info)
    (v : List Nat) (out : String) (j : Nat)
    (hj : find_table_idx int_types_table info.spec info.user = some j) :
    vec_printf_d sf info v out =
      (0, out ++ join_with
        (if is_char_conv (int_types_table.getD j default_rec) then "" else " ")
        (d_pieces sf info v j)) := by
  unfold vec_printf_d
  rw [hj]
  simp only [sep_push]
  rw [loop_join]
  rfl

/-- Reformulation of `vec_printf_f` when the table lookup succeeds. -/
theorem vec_printf_f_some (sf : ScalarFormatter) (info : printf_info)
    (v : List Nat) (out : String) (j : Nat)
    (hj : find_table_idx fp_types_table info.spec info.user = some j) :
    vec_printf_f sf info v out =
      (0, out ++ join_with
        (if is_char_conv (int_types_table.getD j default_rec) then "" else " ")
        (f_pieces sf info v j)) := by
  unfold vec_printf_f
  rw [hj]
  simp only [sep_push]
  rw [loop_join]
  rfl

/-- C1: for every 16-byte vector and every supported conversion, the
iteration engine writes exactly one ASCII space between consecutive
formatted elements and no trailing separator (`join_with " "`), except
when the conversion character is `c`, in which case the formatted
elements are concatenated with no separators at all (`join_with ""`).
Both dispatch paths are covered; the floating-point path never takes
the `c` exception. -/
theorem C1_separator_policy (sf : ScalarFormatter) (info : printf_info)
    (v : List Nat) (out : String) :
    (∀ j, find_table_idx int_types_table info.spec info.user = some j →
       (vec_printf_d sf info v out).2 =
         out ++ join_with (if info.spec == 'c' then "" else " ")
                  (d_pieces sf info v j))
    ∧ (∀ j, find_table_idx fp_types_table info.spec info.user = some j →
       (vec_printf_f sf info v out).2 =
         out ++ join_with " " (f_pieces sf info v j)) := by
  constructor
  · intro j hj
    obtain ⟨hlen, hmatch⟩ := find_table_idx_some _ _ _ _ hj
    rw [vec_printf_d_some sf info v out j hj]
    have hmem : int_types_table.getD j default_rec ∈ int_types_table := by
      rw [List.getD_eq_getElem _ _ hlen]
      exact List.getElem_mem hlen
    have hcc := int_table_char_conv _ hmem
    have hspec : info.spec = (int_types_table.getD j default_rec).spec := by
      have := (Bool.and_eq_true _ _).mp hmatch |>.1
      exact beq_iff_eq.mp this
    rw [hcc, ← hspec]
  · intro j hj
    obtain ⟨hlen, _⟩ := find_table_idx_some _ _ _ _ hj
    rw [vec_printf_f_some sf info v out j hj]
    have h14 : j < 14 := by simpa [fp_types_table] using hlen
    rw [fp_quirk_no_char_conv j h14]
    rfl

/-- Reformulation of `vec_printf_d` when the table lookup fails. -/
theorem vec_printf_d_none (sf : ScalarFormatter) (info : printf_info)
    (v : List Nat) (out : String)
    (hj : find_table_idx int_types_table info.spec info.user = none) :
    vec_printf_d sf info v out = (-2, out) := by
  unfold vec_printf_d
  rw [hj]

/-- Reformulation of `vec_printf_f` when the table lookup fails. -/
theorem vec_printf_f_none (sf : ScalarFormatter) (info : printf_info)
    (v : List Nat) (out : String)
    (hj : find_table_idx fp_types_table info.spec info.user = none) :
    vec_printf_f sf info v out = (-2, out) := by
  unfold vec_printf_f
  rw [hj]

/-- C6: when the (conversion character, modifier bits) pair matches no
entry of the applicable rule table, the dispatch callback returns the
declined status -2 and the output stream holds exactly what it held on
entry - nothing is written before the decline. -/
theorem C6_decline_untouched (sf : ScalarFormatter) (info : printf_info)
    (v : List Nat) (out : String) :
    (find_table_idx int_types_table info.spec info.user = none →
       vec_printf_d sf info v out = (-2, out))
    ∧ (find_table_idx fp_types_table info.spec info.user = none →
       vec_printf_f sf info v out = (-2, out)) :=
  ⟨vec_printf_d_none sf info v out, vec_printf_f_none sf info v out⟩

/-- Witness for C6: `%vp` (conversion `p` with the `v` modifier) matches
no rule in either table, and both callbacks decline leaving the stream
as it was. -/
theorem C6_decline_untouched_witness :
    vec_printf_d host_sprintf
        ⟨'p', mod_bits 4, false, false, false, false, false, ' ', 0, -1⟩
        [] "previous" = (-2, "previous")
    ∧ vec_printf_f host_sprintf
        ⟨'p', mod_bits 4, false, false, false, false, false, ' ', 0, -1⟩
        [] "previous" = (-2, "previous") :=
  ⟨(C6_decline_untouched host_sprintf
      ⟨'p', mod_bits 4, false, false, false, false, false, ' ', 0, -1⟩
      [] "previous").1 (by decide),
   (C6_decline_untouched host_sprintf
      ⟨'p', mod_bits 4, false, false, false, false, false, ' ', 0, -1⟩
      [] "previous").2 (by decide)⟩

theorem table_element_sizes :
    ∀ r ∈ int_types_table ++ fp_types_table,
      r.element_size = 1 ∨ r.element_size = 2 ∨ r.element_size = 4 ∨
        r.element_size = 8 := by decide

/-- C7: for every rule of either table, the engine formats exactly
`16 / element_size` elements, and the `i`-th formatted piece is the
scalar formatting of exactly the bytes at offsets
`i*element_size .. i*element_size + element_size - 1` of the 16-byte
vector: the elements are taken in native in-memory order with no
reordering. -/
theorem C7_element_order (sf : ScalarFormatter) (info : printf_info)
    (v : List Nat) (r : vector_types_rec)
    (hr : r ∈ int_types_table ++ fp_types_table) :
    (r.element_size = 1 ∨ r.element_size = 2 ∨ r.element_size = 4 ∨
      r.element_size = 8)
    ∧ (pieces_of sf info v r).length =
        LIBVECTOR_VECTOR_WIDTH_BYTES / r.element_size
    ∧ ∀ i, i < LIBVECTOR_VECTOR_WIDTH_BYTES / r.element_size →
        (pieces_of sf info v r).getD i "" =
          sf (gen_fmt_str info r.mod_and_spec.data) info.width info.prec
             r.data_type ((v.drop (i * r.element_size)).take r.element_size) := by
  refine ⟨table_element_sizes r hr, ?_, ?_⟩
  · simp [pieces_of]
  · intro i hi
    unfold pieces_of
    rw [getD_map_range _ _ _ hi]
    rfl

/-- Witness for C7: the first integer rule (`%vld`, 4-byte elements) on a
concrete vector: 4 pieces, each formatting its own 4-byte window. -/
theorem C7_element_order_witness :
    (⟨'d', 0, "d", 4, VDT_signed_int⟩ : vector_types_rec) ∈
        int_types_table ++ fp_types_table
    ∧ ((⟨'d', 0, "d", 4, VDT_signed_int⟩ : vector_types_rec).element_size = 1 ∨
        (⟨'d', 0, "d", 4, VDT_signed_int⟩ : vector_types_rec).element_size = 2 ∨
        (⟨'d', 0, "d", 4, VDT_signed_int⟩ : vector_types_rec).element_size = 4 ∨
        (⟨'d', 0, "d", 4, VDT_signed_int⟩ : vector_types_rec).element_size = 8)
    ∧ (pieces_of host_sprintf
        ⟨'d', mod_bits 0, false, false, false, false, false, ' ', 0, -1⟩
        [1, 0, 0, 0, 2, 0, 0, 0, 3, 0, 0, 0, 4, 0, 0, 0]
        ⟨'d', 0, "d", 4, VDT_signed_int⟩).length =
        LIBVECTOR_VECTOR_WIDTH_BYTES /
          (⟨'d', 0, "d", 4, VDT_signed_int⟩ : vector_types_rec).element_size
    ∧ ∀ i, i < LIBVECTOR_VECTOR_WIDTH_BYTES /
        (⟨'d', 0, "d", 4, VDT_signed_int⟩ : vector_types_rec).element_size →
        (pieces_of host_sprintf
          ⟨'d', mod_bits 0, false, false, false, false, false, ' ', 0, -1⟩
          [1, 0, 0, 0, 2, 0, 0, 0, 3, 0, 0, 0, 4, 0, 0, 0]
          ⟨'d', 0, "d", 4, VDT_signed_int⟩).getD i "" =
          host_sprintf (gen_fmt_str
              ⟨'d', mod_bits 0, false, false, false, false, false, ' ', 0, -1⟩
              ("d".data))
            0 (-1) VDT_signed_int
            (([1, 0, 0, 0, 2, 0, 0, 0, 3, 0, 0, 0, 4, 0, 0, 0].drop (i * 4)).take 4) := by
  refine ⟨by decide, ?_⟩
  exact C7_element_order host_sprintf
    ⟨'d', mod_bits 0, false, false, false, false, false, ' ', 0, -1⟩
    [1, 0, 0, 0, 2, 0, 0, 0, 3, 0, 0, 0, 4, 0, 0, 0]
    ⟨'d', 0, "d", 4, VDT_signed_int⟩ (by decide)

theorem int_table_specs :
    ∀ r ∈ int_types_table,
      r.spec = 'd' ∨ r.spec = 'i' ∨ r.spec = 'o' ∨ r.spec = 'u' ∨
        r.spec = 'x' ∨ r.spec = 'X' ∨ r.spec = 'c' := by decide

theorem fp_table_bits_indexes :
    ∀ r ∈ fp_types_table, r.bits_index = 4 ∨ r.bits_index = 5 := by decide

theorem low_bits_miss_fp :
    ∀ k, k < 4 → mod_bits k &&& mod_bits 4 = 0 ∧
      mod_bits k &&& mod_bits 5 = 0 := by decide

/-- A modifier bit among vl/lv/vh/hv never matches any floating-point
table row (their rows carry only the `v` and `vv` bits). -/
theorem fp_find_low_bit_none (c : Char) (k : Nat) (hk : k < 4) :
    find_table_idx fp_types_table c (mod_bits k) = none := by
  apply find_idx_from_none
  intro r hr
  have hidx := fp_table_bits_indexes r hr
  have hbit : mod_bits k &&& mod_bits r.bits_index = 0 := by
    rcases hidx with h | h <;> rw [h]
    · exact (low_bits_miss_fp k hk).1
    · exact (low_bits_miss_fp k hk).2
  simp [match_row, hbit]

/-- A conversion character outside `d i o u x X c` matches no integer
table row, whatever the modifier bits. -/
theorem int_find_other_char_none (c : Char) (u : Nat)
    (hd : c ≠ 'd') (hi : c ≠ 'i') (ho : c ≠ 'o') (hu : c ≠ 'u')
    (hx : c ≠ 'x') (hX : c ≠ 'X') (hc : c ≠ 'c') :
    find_table_idx int_types_table c u = none := by
  apply find_idx_from_none
  intro r hr
  have hspec := int_table_specs r hr
  have hbeq : (c == r.spec) = false := by
    rcases hspec with h | h | h | h | h | h | h <;> rw [h] <;>
      exact beq_eq_false_iff_ne.mpr (by assumption)
  simp [match_row, hbeq]

/-- Two successful integer-path lookups whose rows carry the same scalar
suffix, element size and data type produce identical output, whatever the
modifier bits that selected them. -/
theorem vec_printf_d_alias (sf : ScalarFormatter) (info : printf_info)
    (v : List Nat) (out : String) (u1 u0 j1 j0 : Nat)
    (h1 : find_table_idx int_types_table info.spec u1 = some j1)
    (h0 : find_table_idx int_types_table info.spec u0 = some j0)
    (hm : (int_types_table.getD j1 default_rec).mod_and_spec =
            (int_types_table.getD j0 default_rec).mod_and_spec)
    (hs : (int_types_table.getD j1 default_rec).element_size =
            (int_types_table.getD j0 default_rec).element_size)
    (hdt : (int_types_table.getD j1 default_rec).data_type =
            (int_types_table.getD j0 default_rec).data_type) :
    vec_printf_d sf { info with user := u1 } v out =
      vec_printf_d sf { info with user := u0 } v out := by
  rw [vec_printf_d_some sf { info with user := u1 } v out j1 h1,
      vec_printf_d_some sf { info with user := u0 } v out j0 h0]
  simp only [d_pieces, pieces_of, is_char_conv, hm, hs, hdt]
  rfl

/-- C4: for every vector, conversion character, flag/width/precision
setting and prior stream contents, the output produced with the `lv`
modifier bit is identical to the output produced with `vl`, and likewise
`hv` with `vh`, on both dispatch paths (the alias rows carry identical
element size, element kind and scalar suffix; the floating-point path
declines all four of these modifiers identically). -/
theorem C4_alias_equivalence (sf : ScalarFormatter) (info : printf_info)
    (v : List Nat) (out : String) :
    (vec_printf_d sf { info with user := mod_bits 1 } v out =
       vec_printf_d sf { info with user := mod_bits 0 } v out)
    ∧ (vec_printf_d sf { info with user := mod_bits 3 } v out =
       vec_printf_d sf { info with user := mod_bits 2 } v out)
    ∧ (vec_printf_f sf { info with user := mod_bits 1 } v out =
       vec_printf_f sf { info with user := mod_bits 0 } v out)
    ∧ (vec_printf_f sf { info with user := mod_bits 3 } v out =
       vec_printf_f sf { info with user := mod_bits 2 } v out) := by
  refine ⟨?_, ?_, ?_, ?_⟩
  case _ =>
    by_cases hd : info.spec = 'd'
    · exact vec_printf_d_alias sf info v out _ _ 1 0
        (by rw [hd]; decide) (by rw [hd]; decide) rfl rfl rfl
    by_cases hi : info.spec = 'i'
    · exact vec_printf_d_alias sf info v out _ _ 6 5
        (by rw [hi]; decide) (by rw [hi]; decide) rfl rfl rfl
    by_cases ho : info.spec = 'o'
    · exact vec_printf_d_alias sf info v out _ _ 11 10
        (by rw [ho]; decide) (by rw [ho]; decide) rfl rfl rfl
    by_cases hu : info.spec = 'u'
    · exact vec_printf_d_alias sf info v out _ _ 16 15
        (by rw [hu]; decide) (by rw [hu]; decide) rfl rfl rfl
    by_cases hx : info.spec = 'x'
    · exact vec_printf_d_alias sf info v out _ _ 21 20
        (by rw [hx]; decide) (by rw [hx]; decide) rfl rfl rfl
    by_cases hX : info.spec = 'X'
    · exact vec_printf_d_alias sf info v out _ _ 26 25
        (by rw [hX]; decide) (by rw [hX]; decide) rfl rfl rfl
    by_cases hc : info.spec = 'c'
    · have hn1 : find_table_idx int_types_table info.spec (mod_bits 1) = none := by
        rw [hc]; decide
      have hn0 : find_table_idx int_types_table info.spec (mod_bits 0) = none := by
        rw [hc]; decide
      exact (vec_printf_d_none sf { info with user := mod_bits 1 } v out hn1).trans
        (vec_printf_d_none sf { info with user := mod_bits 0 } v out hn0).symm
    · exact (vec_printf_d_none sf { info with user := mod_bits 1 } v out
        (int_find_other_char_none _ _ hd hi ho hu hx hX hc)).trans
        (vec_printf_d_none sf { info with user := mod_bits 0 } v out
          (int_find_other_char_none _ _ hd hi ho hu hx hX hc)).symm
  case _ =>
    by_cases hd : info.spec = 'd'
    · exact vec_printf_d_alias sf info v out _ _ 3 2
        (by rw [hd]; decide) (by rw [hd]; decide) rfl rfl rfl
    by_cases hi : info.spec = 'i'
    · exact vec_printf_d_alias sf info v out _ _ 8 7
        (by rw [hi]; decide) (by rw [hi]; decide) rfl rfl rfl
    by_cases ho : info.spec = 'o'
    · exact vec_printf_d_alias sf info v out _ _ 13 12
        (by rw [ho]; decide) (by rw [ho]; decide) rfl rfl rfl
    by_cases hu : info.spec = 'u'
    · exact vec_printf_d_alias sf info v out _ _ 18 17
        (by rw [hu]; decide) (by rw [hu]; decide) rfl rfl rfl
    by_cases hx : info.spec = 'x'
    · exact vec_printf_d_alias sf info v out _ _ 23 22
        (by rw [hx]; decide) (by rw [hx]; decide) rfl rfl rfl
    by_cases hX : info.spec = 'X'
    · exact vec_printf_d_alias sf info v out _ _ 28 27
        (by rw [hX]; decide) (by rw [hX]; decide) rfl rfl rfl
    by_cases hc : info.spec = 'c'
    · have hn1 : find_table_idx int_types_table info.spec (mod_bits 3) = none := by
        rw [hc]; decide
      have hn0 : find_table_idx int_types_table info.spec (mod_bits 2) = none := by
        rw [hc]; decide
      exact (vec_printf_d_none sf { info with user := mod_bits 3 } v out hn1).trans
        (vec_printf_d_none sf { info with user := mod_bits 2 } v out hn0).symm
    · exact (vec_printf_d_none sf { info with user := mod_bits 3 } v out
        (int_find_other_char_none _ _ hd hi ho hu hx hX hc)).trans
        (vec_printf_d_none sf { info with user := mod_bits 2 } v out
          (int_find_other_char_none _ _ hd hi ho hu hx hX hc)).symm
  case _ =>
    exact (vec_printf_f_none sf { info with user := mod_bits 1 } v out
      (fp_find_low_bit_none info.spec 1 (by omega))).trans
      (vec_printf_f_none sf { info with user := mod_bits 0 } v out
        (fp_find_low_bit_none info.spec 0 (by omega))).symm
  case _ =>
    exact (vec_printf_f_none sf { info with user := mod_bits 3 } v out
      (fp_find_low_bit_none info.spec 3 (by omega))).trans
      (vec_printf_f_none sf { info with user := mod_bits 2 } v out
        (fp_find_low_bit_none info.spec 2 (by omega))).symm

/-- Per the spec (section 4.3), built from its words for comparison with
the code's `gen_fmt_str`: the flag characters present in the request, in
exactly the order hash, space, minus, plus, apostrophe. -/
def flag_chars_spec (info : printf_info) : List Char :=
  ([('#', info.alt), (' ', info.space), ('-', info.left),
    ('+', info.showsign), (Char.ofNat 39, info.group)]).filterMap
    (fun p => if p.2 then some p.1 else none)

/-- C5: for every request and suffix, the synthesized per-element format
string is `%`, then the flag characters present in exactly the order
hash, space, minus, plus, apostrophe, then `0` exactly when the zero-pad flag is set and
left-justify is not, then the width and precision placeholders `*.*`,
then the rule's scalar suffix. -/
theorem C5_flag_order (info : printf_info) (suffix : List Char) :
    gen_fmt_str info suffix =
      ['%'] ++ flag_chars_spec info
        ++ (if info.pad == '0' && !info.left then ['0'] else [])
        ++ ['*', '.', '*'] ++ suffix := by
  unfold gen_fmt_str flag_chars_spec
  cases info.alt <;> cases info.space <;> cases info.left <;>
    cases info.showsign <;> cases info.group <;>
    cases hpad : (info.pad == '0') <;> simp [hpad]

theorem table_suffix_len :
    ∀ r ∈ int_types_table ++ fp_types_table, r.mod_and_spec.length ≤ 3 := by
  decide

/-- C9: for every rule of either table and every flag setting, the
synthesized per-element format string (trailing NUL included) is at most
16 characters, and in particular fits the 64-byte static buffer
`FMT_STR_MAXLEN`: synthesis never overflows and always leaves the string
NUL-terminated. -/
theorem C9_fmt_len_bound (info : printf_info) (r : vector_types_rec)
    (hr : r ∈ int_types_table ++ fp_types_table) :
    (gen_fmt_str info r.mod_and_spec.data).length + 1 ≤ 16
    ∧ (gen_fmt_str info r.mod_and_spec.data).length + 1 ≤ FMT_STR_MAXLEN := by
  have hs : r.mod_and_spec.data.length ≤ 3 := table_suffix_len r hr
  have hs2 : r.mod_and_spec.length ≤ 3 := hs
  constructor <;>
    (unfold gen_fmt_str
     cases info.alt <;> cases info.space <;> cases info.left <;>
       cases info.showsign <;> cases info.group <;>
       cases hpad : (info.pad == '0') <;>
       simp [hpad, FMT_STR_MAXLEN] <;> omega)

/-- Witness for C9: the `%vld` rule with every flag set. -/
theorem C9_fmt_len_bound_witness :
    (⟨'d', 0, "d", 4, VDT_signed_int⟩ : vector_types_rec) ∈
        int_types_table ++ fp_types_table
    ∧ ((gen_fmt_str ⟨'d', 1, true, true, true, true, true, '0', 0, -1⟩
          (⟨'d', 0, "d", 4, VDT_signed_int⟩ :
            vector_types_rec).mod_and_spec.data).length + 1 ≤ 16
       ∧ (gen_fmt_str ⟨'d', 1, true, true, true, true, true, '0', 0, -1⟩
          (⟨'d', 0, "d", 4, VDT_signed_int⟩ :
            vector_types_rec).mod_and_spec.data).length + 1 ≤ FMT_STR_MAXLEN) :=
  ⟨by decide,
   C9_fmt_len_bound ⟨'d', 1, true, true, true, true, true, '0', 0, -1⟩
     ⟨'d', 0, "d", 4, VDT_signed_int⟩ (by decide)⟩

/-- C10: for every rule of either table, the iteration bound
`16 / element_size` equals the element count of the `vp_u_t` union member
selected by the rule's data type, so all per-element accesses through the
union stay in bounds. -/
theorem C10_union_bounds (r : vector_types_rec)
    (hr : r ∈ int_types_table ++ fp_types_table) :
    LIBVECTOR_VECTOR_WIDTH_BYTES / r.element_size =
      vp_u_member_len r.data_type
    ∧ ∀ i, i < LIBVECTOR_VECTOR_WIDTH_BYTES / r.element_size →
        i < vp_u_member_len r.data_type := by
  have key : ∀ x ∈ int_types_table ++ fp_types_table,
      LIBVECTOR_VECTOR_WIDTH_BYTES / x.element_size =
        vp_u_member_len x.data_type := by decide
  refine ⟨key r hr, ?_⟩
  intro i hi
  rw [← key r hr]
  exact hi

/-- Witness for C10: the `%vc` rule (1-byte elements, 16-element union
member `uc`). -/
theorem C10_union_bounds_witness :
    (⟨'c', 4, "c", 1, VDT_unsigned_char⟩ : vector_types_rec) ∈
        int_types_table ++ fp_types_table
    ∧ (LIBVECTOR_VECTOR_WIDTH_BYTES /
        (⟨'c', 4, "c", 1, VDT_unsigned_char⟩ :
          vector_types_rec).element_size =
        vp_u_member_len (⟨'c', 4, "c", 1, VDT_unsigned_char⟩ :
          vector_types_rec).data_type
       ∧ ∀ i, i < LIBVECTOR_VECTOR_WIDTH_BYTES /
          (⟨'c', 4, "c", 1, VDT_unsigned_char⟩ :
            vector_types_rec).element_size →
          i < vp_u_member_len (⟨'c', 4, "c", 1, VDT_unsigned_char⟩ :
            vector_types_rec).data_type) :=
  ⟨by decide, C10_union_bounds ⟨'c', 4, "c", 1, VDT_unsigned_char⟩ (by decide)⟩

/-- src/test_vecpf.c: `UINT32_TEST_VECTOR` = {4294967295, 0, 39,
2147483647}, as its 16 raw bytes (little-endian host). -/
def UINT32_TEST_VECTOR : List Nat :=
  [255, 255, 255, 255, 0, 0, 0, 0, 39, 0, 0, 0, 255, 255, 255, 127]

/-- C2: formatting the 4-element unsigned-32-bit vector
{4294967295, 0, 39, 2147483647} with the word-size modifier `vl` and
conversion `u`, no flags, width 0 and absent precision (-1), succeeds and
writes exactly "4294967295 0 39 2147483647". -/
theorem C2_uint32_vlu_example :
    vec_printf_d host_sprintf
      ⟨'u', mod_bits 0, false, false, false, false, false, ' ', 0, -1⟩
      UINT32_TEST_VECTOR "" = (0, "4294967295 0 39 2147483647") := by
  decide

/-- A request with the given conversion character and modifier bits and
no flags, width 0, precision absent. -/
def sample_info (c : Char) (u : Nat) : printf_info :=
  ⟨c, u, false, false, false, false, false, ' ', 0, -1⟩

/-- src/test_vecpf.c: `CHAR_TEST_VECTOR` = "this space is fo", as bytes. -/
def CHAR_TEST_VECTOR : List Nat :=
  [116, 104, 105, 115, 32, 115, 112, 97, 99, 101, 32, 105, 115, 32, 102, 111]

/-- Witness for C1: the `%vc` directive joins its 16 pieces with no
separator, and the `%vvf` directive joins its 2 pieces with single
spaces. -/
theorem C1_separator_policy_witness :
    (vec_printf_d host_sprintf (sample_info 'c' (mod_bits 4))
        CHAR_TEST_VECTOR "x").2 =
      "x" ++ join_with (if (sample_info 'c' (mod_bits 4)).spec == 'c'
          then "" else " ")
        (d_pieces host_sprintf (sample_info 'c' (mod_bits 4))
          CHAR_TEST_VECTOR 30)
    ∧ (vec_printf_f host_sprintf (sample_info 'f' (mod_bits 5))
        CHAR_TEST_VECTOR "x").2 =
      "x" ++ join_with " "
        (f_pieces host_sprintf (sample_info 'f' (mod_bits 5))
          CHAR_TEST_VECTOR 7) :=
  ⟨(C1_separator_policy host_sprintf (sample_info 'c' (mod_bits 4))
      CHAR_TEST_VECTOR "x").1 30 (by decide),
   (C1_separator_policy host_sprintf (sample_info 'f' (mod_bits 5))
      CHAR_TEST_VECTOR "x").2 7 (by decide)⟩

/-- C3 counterexample: the conversion character `F` has no row in
`fp_types_table`, so `%vF` (and `%vvF`) resolves to no rule and the
dispatch callback declines it with -2 instead of handling it. -/
theorem C3_F_declined_counterexample :
    find_table_idx fp_types_table 'F' (mod_bits 4) = none
    ∧ find_table_idx fp_types_table 'F' (mod_bits 5) = none
    ∧ vec_printf_f host_sprintf (sample_info 'F' (mod_bits 4))
        CHAR_TEST_VECTOR "" = (-2, "") := by
  refine ⟨by decide, by decide, ?_⟩
  exact vec_printf_f_none host_sprintf (sample_info 'F' (mod_bits 4))
    CHAR_TEST_VECTOR "" (by decide)

/-- C3 amended: for every float-family conversion character among
f e E g G a A - all of them except `F`, which has no table row - combined
with the `v` or the `vv` modifier bit, the conversion-rule lookup
resolves to a rule and the dispatch callback handles the directive
(returns 0, not the declined status -2). -/
theorem C3_float_conversions_handled (sf : ScalarFormatter)
    (info : printf_info) (v : List Nat) (out : String)
    (hspec : info.spec ∈ ['f', 'e', 'E', 'g', 'G', 'a', 'A'])
    (huser : info.user = mod_bits 4 ∨ info.user = mod_bits 5) :
    (∃ j, find_table_idx fp_types_table info.spec info.user = some j)
    ∧ (vec_printf_f sf info v out).1 = 0 := by
  have step : ∀ j, find_table_idx fp_types_table info.spec info.user =
      some j →
      (∃ j, find_table_idx fp_types_table info.spec info.user = some j)
      ∧ (vec_printf_f sf info v out).1 = 0 := by
    intro j hj
    refine ⟨⟨j, hj⟩, ?_⟩
    rw [vec_printf_f_some sf info v out j hj]
  simp only [List.mem_cons, List.not_mem_nil, or_false] at hspec
  rcases huser with h2 | h2 <;>
    rcases hspec with h | h | h | h | h | h | h
  · exact step 0 (by rw [h, h2]; decide)
  · exact step 1 (by rw [h, h2]; decide)
  · exact step 2 (by rw [h, h2]; decide)
  · exact step 3 (by rw [h, h2]; decide)
  · exact step 4 (by rw [h, h2]; decide)
  · exact step 5 (by rw [h, h2]; decide)
  · exact step 6 (by rw [h, h2]; decide)
  · exact step 7 (by rw [h, h2]; decide)
  · exact step 8 (by rw [h, h2]; decide)
  · exact step 9 (by rw [h, h2]; decide)
  · exact step 10 (by rw [h, h2]; decide)
  · exact step 11 (by rw [h, h2]; decide)
  · exact step 12 (by rw [h, h2]; decide)
  · exact step 13 (by rw [h, h2]; decide)

/-- Witness for amended C3: `%vf` resolves and is handled. -/
theorem C3_float_conversions_handled_witness :
    (sample_info 'f' (mod_bits 4)).spec ∈ ['f', 'e', 'E', 'g', 'G', 'a', 'A']
    ∧ ((∃ j, find_table_idx fp_types_table (sample_info 'f' (mod_bits 4)).spec
          (sample_info 'f' (mod_bits 4)).user = some j)
       ∧ (vec_printf_f host_sprintf (sample_info 'f' (mod_bits 4))
            CHAR_TEST_VECTOR "").1 = 0) :=
  ⟨by decide,
   C3_float_conversions_handled host_sprintf (sample_info 'f' (mod_bits 4))
     CHAR_TEST_VECTOR "" (by decide) (Or.inl rfl)⟩

theorem le_val_append (xs ys : List Nat) :
    le_val (xs ++ ys) = le_val xs + 256 ^ xs.length * le_val ys := by
  induction xs with
  | nil => simp [le_val]
  | cons b t ih =>
      rw [List.cons_append, le_val, le_val, ih, List.length_cons]
      ring

theorem le_val_lt (xs : List Nat) (h : ∀ b ∈ xs, b < 256) :
    le_val xs < 256 ^ xs.length := by
  induction xs with
  | nil => simp [le_val]
  | cons b t ih =>
      have hb : b < 256 := h b (List.mem_cons_self b t)
      have ht := ih (fun x hx => h x (List.mem_cons_of_mem _ hx))
      simp only [le_val, List.length_cons]
      calc b + 256 * le_val t < 256 + 256 * le_val t := by omega
        _ = 256 * (le_val t + 1) := by ring
        _ ≤ 256 * 256 ^ t.length := Nat.mul_le_mul_left 256 (by omega)
        _ = 256 ^ (t.length + 1) := by ring

/-- Modelled from the spec: the `vz`/`zv` 128-bit-integer decomposition
path is not in src/vecpf.c (only src/test_vecpf.c refers to it, under
HAVE_INT128_T).  Per spec sections 4.4 and 8, the 16 bytes are emitted as
exactly two 8-byte halves, each formatted as an unsigned 64-bit value: on
a little-endian platform the half at byte offsets 8..15 - the numerically
high half - is emitted first, reversed relative to memory order; on a
big-endian platform the halves are emitted in memory order (offsets 0..7
first). -/
def int128_emit_halves (little_endian : Bool) (v : List Nat) : List Nat :=
  if little_endian then [le_val (v.drop 8), le_val (v.take 8)]
  else [be_val (v.take 8), be_val (v.drop 8)]

/-- Modelled from the spec: the 128-bit value the 16 bytes hold, per the
platform's byte order. -/
def int128_value (little_endian : Bool) (v : List Nat) : Nat :=
  if little_endian then le_val v else be_val v

/-- C8: on a little-endian platform the 128-bit path emits the
numerically high 8-byte half (the value divided by 2^64) before the low
half (the value modulo 2^64) - reversed relative to memory order; on a
big-endian platform the two halves are emitted in memory order; in both
cases recombining the emitted halves as high*2^64 + low recovers the
original 128-bit value. -/
theorem C8_int128_half_order (v : List Nat) (hlen : v.length = 16)
    (hb : ∀ b ∈ v, b < 256) :
    (int128_emit_halves true v =
        [int128_value true v / 2 ^ 64, int128_value true v % 2 ^ 64]
     ∧ (int128_emit_halves true v).getD 0 0 * 2 ^ 64 +
         (int128_emit_halves true v).getD 1 0 = int128_value true v)
    ∧ (int128_emit_halves false v = [be_val (v.take 8), be_val (v.drop 8)]
       ∧ (int128_emit_halves false v).getD 0 0 * 2 ^ 64 +
           (int128_emit_halves false v).getD 1 0 = int128_value false v) := by
  have htake : (v.take 8).length = 8 := by
    rw [List.length_take]
    omega
  have hdrop : (v.drop 8).length = 8 := by
    rw [List.length_drop, hlen]
  have hpow : (256 : Nat) ^ 8 = 2 ^ 64 := by norm_num
  have hsplit : le_val v = le_val (v.take 8) + 2 ^ 64 * le_val (v.drop 8) := by
    conv_lhs => rw [← List.take_append_drop 8 v]
    rw [le_val_append, htake, hpow]
  have hlo : le_val (v.take 8) < 2 ^ 64 := by
    have h1 := le_val_lt (v.take 8)
      (fun x hx => hb x (List.mem_of_mem_take hx))
    rw [htake, hpow] at h1
    exact h1
  have hbe : be_val v = be_val (v.drop 8) + 2 ^ 64 * be_val (v.take 8) := by
    unfold be_val
    conv_lhs => rw [← List.take_append_drop 8 v]
    rw [List.reverse_append, le_val_append, List.length_reverse, hdrop, hpow]
  refine ⟨⟨?_, ?_⟩, ?_, ?_⟩
  · have hhi : le_val v / 2 ^ 64 = le_val (v.drop 8) := by
      rw [hsplit, Nat.add_mul_div_left _ _ (by positivity),
          Nat.div_eq_of_lt hlo, Nat.zero_add]
    have hmod : le_val v % 2 ^ 64 = le_val (v.take 8) := by
      rw [hsplit, Nat.add_mul_mod_self_left, Nat.mod_eq_of_lt hlo]
    rw [show int128_emit_halves true v =
          [le_val (v.drop 8), le_val (v.take 8)] from rfl,
        show int128_value true v = le_val v from rfl, ← hhi, ← hmod]
  · have e0 : ([le_val (v.drop 8), le_val (v.take 8)] : List Nat).getD 0 0 =
        le_val (v.drop 8) := rfl
    have e1 : ([le_val (v.drop 8), le_val (v.take 8)] : List Nat).getD 1 0 =
        le_val (v.take 8) := rfl
    rw [show int128_emit_halves true v =
          [le_val (v.drop 8), le_val (v.take 8)] from rfl,
        show int128_value true v = le_val v from rfl, e0, e1]
    omega
  · rfl
  · have e0 : ([be_val (v.take 8), be_val (v.drop 8)] : List Nat).getD 0 0 =
        be_val (v.take 8) := rfl
    have e1 : ([be_val (v.take 8), be_val (v.drop 8)] : List Nat).getD 1 0 =
        be_val (v.drop 8) := rfl
    rw [show int128_emit_halves false v =
          [be_val (v.take 8), be_val (v.drop 8)] from rfl,
        show int128_value false v = be_val v from rfl, e0, e1]
    omega

/-- Witness for C8: a concrete 16-byte vector. -/
theorem C8_int128_half_order_witness :
    ([1, 2, 3, 4, 5, 6, 7, 8, 9, 10, 11, 12, 13, 14, 15, 16] :
        List Nat).length = 16
    ∧ (∀ b ∈ ([1, 2, 3, 4, 5, 6, 7, 8, 9, 10, 11, 12, 13, 14, 15, 16] :
        List Nat), b < 256)
    ∧ ((int128_emit_halves true
          [1, 2, 3, 4, 5, 6, 7, 8, 9, 10, 11, 12, 13, 14, 15, 16] =
         [int128_value true
            [1, 2, 3, 4, 5, 6, 7, 8, 9, 10, 11, 12, 13, 14, 15, 16] / 2 ^ 64,
          int128_value true
            [1, 2, 3, 4, 5, 6, 7, 8, 9, 10, 11, 12, 13, 14, 15, 16] % 2 ^ 64]
       ∧ (int128_emit_halves true
            [1, 2, 3, 4, 5, 6, 7, 8, 9, 10, 11, 12, 13, 14, 15, 16]).getD 0 0
            * 2 ^ 64 +
          (int128_emit_halves true
            [1, 2, 3, 4, 5, 6, 7, 8, 9, 10, 11, 12, 13, 14, 15, 16]).getD 1 0
          = int128_value true
              [1, 2, 3, 4, 5, 6, 7, 8, 9, 10, 11, 12, 13, 14, 15, 16])
      ∧ (int128_emit_halves false
           [1, 2, 3, 4, 5, 6, 7, 8, 9, 10, 11, 12, 13, 14, 15, 16] =
          [be_val (([1, 2, 3, 4, 5, 6, 7, 8, 9, 10, 11, 12, 13, 14, 15, 16] :
             List Nat).take 8),
           be_val (([1, 2, 3, 4, 5, 6, 7, 8, 9, 10, 11, 12, 13, 14, 15, 16] :
             List Nat).drop 8)]
        ∧ (int128_emit_halves false
             [1, 2, 3, 4, 5, 6, 7, 8, 9, 10, 11, 12, 13, 14, 15, 16]).getD 0 0
             * 2 ^ 64 +
           (int128_emit_halves false
             [1, 2, 3, 4, 5, 6, 7, 8, 9, 10, 11, 12, 13, 14, 15, 16]).getD 1 0
           = int128_value false
               [1, 2, 3, 4, 5, 6, 7, 8, 9, 10, 11, 12, 13, 14, 15, 16])) :=
  ⟨rfl, by decide,
   C8_int128_half_order [1, 2, 3, 4, 5, 6, 7, 8, 9, 10, 11, 12, 13, 14, 15, 16]
     rfl (by decide)⟩

end Vecpf

